import Mathlib

/-!
Shallow embedding of `zusage.py`, a terminal tool that reports API-quota
consumption: threshold-colored progress bars, a display-width calculator for
mixed-width (CJK) text, an aggregator turning an hourly usage series into
daily totals, a rolling N-day date window, and the report-composition glue.

Python dicts are modelled as insertion-ordered association lists
(`List (String × Nat)`), Python `None` as `Option.none`, and an uncaught
Python exception as the `Except.error` branch of `Except AggError _`.
-/

namespace Zusage

/-! ### ANSI color constants (class `Colors` in the source) -/

def HEADER : String := "\x1b[95m"
def OKBLUE : String := "\x1b[94m"
def OKCYAN : String := "\x1b[96m"
def OKGREEN : String := "\x1b[92m"
def WARNING : String := "\x1b[93m"
def FAIL : String := "\x1b[91m"
def ENDC : String := "\x1b[0m"
def GREEN_BAR : String := "\x1b[92m"
def YELLOW_BAR : String := "\x1b[93m"
def RED_BAR : String := "\x1b[91m"
def GRAY_BAR : String := "\x1b[90m"

/-! ### Progress/threshold renderer -/

/-- `get_progress_bar_color` from the source: bar color by percentage
(`< 50` green, `< 80` yellow, otherwise red). -/
def get_progress_bar_color (percentage : Nat) : String :=
  if percentage < 50 then GREEN_BAR
  else if percentage < 80 then YELLOW_BAR
  else RED_BAR

/-- `get_percentage_color` from the source: label color by percentage
(`< 50` green, `< 80` yellow, otherwise red). -/
def get_percentage_color (percentage : Nat) : String :=
  if percentage < 50 then OKGREEN
  else if percentage < 80 then WARNING
  else FAIL

/-- `create_progress_bar` from the source (the Python default is
`width=30`; callers in the program always use that default).
`int(width * percentage / 100)` on nonnegative operands is floored
division; `width - filled` feeding a negative count into `'░' * empty`
yields the empty string, which Nat subtraction models exactly. -/
def create_progress_bar (percentage : Nat) (width : Nat) : String :=
  let filled := width * percentage / 100
  let empty := width - filled
  let color := get_progress_bar_color percentage
  color ++ String.mk (List.replicate filled '█')
    ++ GRAY_BAR ++ String.mk (List.replicate empty '░') ++ ENDC

/-- Number of occurrences of character `c` in string `s`. -/
def countChar (c : Char) (s : String) : Nat :=
  s.data.count c

/-! ### Display-width calculator -/

/-- The membership string on the `get_display_width` line of the source:
two adjacent Python literals `'（）：，。、；'` and `'""【】《》'`
concatenate, so the set contains the fullwidth punctuation plus the ASCII
double quote (twice). -/
def cjkPunct : String := "（）：，。、；\"\"【】《》"

/-- Per-character display width: 2 for CJK Unified Ideographs
(U+4E00..U+9FFF) and for the punctuation set, else 1. -/
def charDisplayWidth (c : Char) : Nat :=
  if (0x4e00 ≤ c.toNat ∧ c.toNat ≤ 0x9fff) ∨ c ∈ cjkPunct.data then 2 else 1

/-- `get_display_width` from the source: fold the per-character width over
the string, starting from 0. -/
def get_display_width (text : String) : Nat :=
  text.data.foldl (fun w c => w + charDisplayWidth c) 0

/-! ### Usage aggregator -/

/-- `time_str.split(' ')[0]` from the source: the characters before the
first space (the whole string when it has no space). -/
def dateOf (s : String) : String :=
  String.mk (s.data.takeWhile (fun c => c ≠ ' '))

/-- Python-dict lookup `m.get(k)`: first entry with key `k`, if any. -/
def dictGet : List (String × Nat) → String → Option Nat
  | [], _ => none
  | p :: rest, k => if p.1 = k then some p.2 else dictGet rest k

/-- The dict update `daily_totals[k] = daily_totals.get(k, 0) + v` spelled
by the source as "create the bucket at 0 if missing, then add": the first
entry with key `k` gains `v` in place, a missing key is appended at the
end (Python dicts preserve insertion order). -/
def dictInsertAdd : List (String × Nat) → String → Nat → List (String × Nat)
  | [], k, v => [(k, v)]
  | p :: rest, k, v =>
      if p.1 = k then (p.1, p.2 + v) :: rest
      else p :: dictInsertAdd rest k v

/-- One iteration of the aggregation loop on an index-synchronized
(time-label, token-value) pair: a present value is added into the bucket
of its date, an absent (`None`) value is skipped entirely. -/
def aggStep (acc : List (String × Nat)) (p : String × Option Nat) : List (String × Nat) :=
  match p.2 with
  | none => acc
  | some v => dictInsertAdd acc (dateOf p.1) v

/-- Modelled from the spec's aggregation algorithm, to be compared with the
source loop `aggLoop`: iterate the pairs of the series in order, truncating
each label to its date portion and summing present values into that date's
bucket; absent values contribute nothing and create no bucket. -/
def dailySpec (l : List (String × Option Nat)) : List (String × Nat) :=
  l.foldl aggStep []

/-- The one uncaught exception the aggregation loop can raise:
`tokens_usage[i]` with `i` out of range raises `IndexError`, which the
source's `except (AttributeError, TypeError)` clause does not catch. -/
inductive AggError where
  | indexError
  deriving DecidableEq, Repr

/-- The loop `for i, time_str in enumerate(x_times): token_value =
tokens_usage[i]; ...` from `aggregate_daily_usage`: walks the time labels
with the running index into the token list; an exhausted token list at a
live label is an out-of-range index. -/
def aggLoop : List String → List (Option Nat) → List (String × Nat) →
    Except AggError (List (String × Nat))
  | [], _, acc => .ok acc
  | _ :: _, [], _ => .error .indexError
  | t :: ts, v :: vs, acc =>
      match v with
      | none => aggLoop ts vs acc
      | some x => aggLoop ts vs (dictInsertAdd acc (dateOf t) x)

/-- The usage-series document shape `aggregate_daily_usage` reads:
`success`, `data.x_time`, `data.tokensUsage`, and the already-defaulted
`data.totalUsage.totalTokensUsage`. -/
structure UsageDoc where
  success : Bool
  x_time : List String
  tokensUsage : List (Option Nat)
  totalTokensUsage : Nat
  deriving DecidableEq, Repr

/-- The aggregator's result `{'daily': ..., 'total': ...}`. -/
structure AggregatedUsage where
  daily : List (String × Nat)
  total : Nat
  deriving DecidableEq, Repr

/-- `aggregate_daily_usage` from the source. `none` input models the
`None` that `fetch_usage_data` returns on transport/parse failure; a falsy
or failure-flagged document returns `None`; otherwise the loop runs and an
uncaught `IndexError` propagates (`Except.error`). -/
def aggregate_daily_usage : Option UsageDoc → Except AggError (Option AggregatedUsage)
  | none => .ok none
  | some d =>
      if d.success = false then .ok none
      else (aggLoop d.x_time d.tokensUsage []).map
        (fun daily => some { daily := daily, total := d.totalTokensUsage })

/-! ### Specification helpers for the daily map -/

/-- Pointwise combination used to characterize bucket values: absent stays
absent, present values add. -/
def optAdd : Option Nat → Option Nat → Option Nat
  | none, b => b
  | some a, none => some a
  | some a, some b => some (a + b)

/-- The bucket a series contributes to key `k`: `none` when no present
pair has date `k`, otherwise the sum of the present values at date `k`. -/
def contrib (k : String) : List (String × Option Nat) → Option Nat
  | [] => none
  | (_, none) :: rest => contrib k rest
  | (t, some v) :: rest =>
      if dateOf t = k then some (v + (contrib k rest).getD 0)
      else contrib k rest

/-- The present values of the series whose date is `k`, in order. -/
def contribList (k : String) (l : List (String × Option Nat)) : List Nat :=
  l.filterMap (fun p =>
    match p.2 with
    | none => none
    | some v => if dateOf p.1 = k then some v else none)

/-! ### Time window calculator -/

/-- Day number (days since 1970-01-01) of a Gregorian civil date,
following the standard civil-calendar algorithm; models the date
arithmetic of Python's `datetime`/`timedelta`. `Int` division is floor
division for positive divisors, as in Python. -/
def days_from_civil (y m d : Int) : Int :=
  let y := if m ≤ 2 then y - 1 else y
  let era := y / 400
  let yoe := y - era * 400
  let mp := (m + 9) % 12
  let doy := (153 * mp + 2) / 5 + d - 1
  let doe := yoe * 365 + yoe / 4 - yoe / 100 + doy
  era * 146097 + doe - 719468

/-- Civil date (year, month, day) of a day number; inverse of
`days_from_civil`. -/
def civil_from_days (z : Int) : Int × Int × Int :=
  let z := z + 719468
  let era := z / 146097
  let doe := z - era * 146097
  let yoe := (doe - doe / 1460 + doe / 36524 - doe / 146096) / 365
  let y := yoe + era * 400
  let doy := doe - (365 * yoe + yoe / 4 - yoe / 100)
  let mp := (5 * doy + 2) / 153
  let d := doy - (153 * mp + 2) / 5 + 1
  let m := mp + (if mp < 10 then 3 else -9)
  (if m ≤ 2 then y + 1 else y, m, d)

/-- Zero-pad a (nonnegative) number to two digits, as `%m`/`%d` do. -/
def pad2 (n : Int) : String :=
  if n < 10 then "0" ++ toString n else toString n

/-- Zero-pad a (nonnegative) year to four digits, as `%Y` does. -/
def pad4 (n : Int) : String :=
  if n < 10 then "000" ++ toString n
  else if n < 100 then "00" ++ toString n
  else if n < 1000 then "0" ++ toString n
  else toString n

/-- `date.strftime('%Y-%m-%d')` on the date with day number `z`. -/
def fmtDate (z : Int) : String :=
  let c := civil_from_days z
  pad4 c.1 ++ "-" ++ pad2 c.2.1 ++ "-" ++ pad2 c.2.2

/-- `date.strftime('%a')`: weekday abbreviation; day number 0
(1970-01-01) is a Thursday. -/
def weekdayAbbrev (z : Int) : String :=
  (["Thu", "Fri", "Sat", "Sun", "Mon", "Tue", "Wed"].getD (z % 7).toNat "")

/-- The query window of `main` (lines building `start_time_str` and
`end_time_str`): `end_date = now`, `start_date = end_date -
timedelta(days=days-1)`, formatted with `' 00:00:00'` / `' 23:59:59'`
suffixes. `today` is the day number of the local calendar date of `now`;
naive-datetime subtraction of whole days shifts the calendar date by
exactly that many days. -/
structure DateWindow where
  startLabel : String
  endLabel : String
  deriving DecidableEq, Repr

/-- The window computed in `main` for an `N`-day fetch. -/
def date_window (today : Int) (days : Nat) : DateWindow :=
  { startLabel := fmtDate (today - (days - 1 : Nat)) ++ " 00:00:00",
    endLabel := fmtDate today ++ " 23:59:59" }

/-- The `date_list` built in `print_weekly_usage`: for `i` in
`range(days)`, the date `today - timedelta(days=i)` with its `%Y-%m-%d`
string — most-recent-first, index 0 today. -/
def date_list (today : Int) (days : Nat) : List (String × Int) :=
  (List.range days).map (fun (i : Nat) => (fmtDate (today - (i : Int)), today - (i : Int)))

/-- The per-row label of `print_weekly_usage`: index 0 is marked 今天
(today), index 1 昨天 (yesterday), later rows carry the weekday
abbreviation. -/
def day_label (i : Nat) (dateStr : String) (z : Int) : String :=
  if i = 0 then dateStr ++ " (今天)"
  else if i = 1 then dateStr ++ " (昨天)"
  else dateStr ++ " (" ++ weekdayAbbrev z ++ ")"

/-! ### Weekly chart -/

/-- `max_usage` in `print_weekly_usage`: `max(daily.values()) if daily
else 1`, then replaced by 1 when it is 0. -/
def max_usage_of (daily : List (String × Nat)) : Nat :=
  let m := match daily.map Prod.snd with
    | [] => 1
    | v :: vs => vs.foldl Nat.max v
  if m = 0 then 1 else m

/-- The chart rows of `print_weekly_usage`: for each window day its date
string, its bucket value (`daily.get(date_str, 0)`), and its bar width
`int(30 * usage / max_usage)` (with the source's dead `max_usage > 0`
guard kept). An empty daily map makes the function return before drawing
(`if not daily: return`). -/
def weekly_rows (today : Int) (days : Nat) (daily : List (String × Nat)) :
    List (String × Nat × Nat) :=
  if daily = [] then []
  else
    let m := max_usage_of daily
    (date_list today days).map (fun p =>
      let usage := (dictGet daily p.1).getD 0
      (p.1, usage, if 0 < m then 30 * usage / m else 0))

/-! ### Report composition for the secondary (usage-series) call -/

/-- What `print_daily_usage_summary` renders: the explicit no-data
placeholder (`消耗统计: 暂无数据`) when the aggregate is `None`, else
today's bucket value (defaulted to 0) and the reported total. -/
inductive SummaryBlock where
  | noData
  | data (todayUsage : Nat) (total : Nat)
  deriving DecidableEq, Repr

/-- `print_daily_usage_summary` from the source, as the block it renders;
`todayKey` is `get_today_date()`. -/
def print_daily_usage_summary (todayKey : String) :
    Option AggregatedUsage → SummaryBlock
  | none => .noData
  | some u => .data ((dictGet u.daily todayKey).getD 0) u.total

/-- The tail of `main` after the quota block: fetch result of the
secondary call (already parsed, `none` on transport/parse failure) goes
through `aggregate_daily_usage`; the summary block is rendered, the chart
is shown only under `args.show_weekly and aggregated_usage`, and the run
falls through to exit status 0. An uncaught aggregation exception aborts
the phase instead. -/
def secondary_phase (show_weekly : Bool) (todayKey : String)
    (resp : Option UsageDoc) : Except AggError (SummaryBlock × Bool × Nat) :=
  match aggregate_daily_usage resp with
  | .error e => .error e
  | .ok agg => .ok (print_daily_usage_summary todayKey agg, show_weekly && agg.isSome, 0)

/-! ### Concrete documents used as test vectors -/

/-- The spec's sample series: three hourly labels, the middle sample
absent. -/
def sampleTimes : List String :=
  ["2024-01-01 00:00:00", "2024-01-01 12:00:00", "2024-01-02 00:00:00"]

/-- Token values of the sample series. -/
def sampleTokens : List (Option Nat) := [some 10, none, some 5]

/-- The sample usage-series document. -/
def sampleDoc : UsageDoc :=
  { success := true, x_time := sampleTimes, tokensUsage := sampleTokens,
    totalTokensUsage := 99 }

/-- A document whose time-label array is longer than its token-value
array. -/
def mismatchDoc : UsageDoc :=
  { success := true, x_time := ["2024-01-01 00:00:00"], tokensUsage := [],
    totalTokensUsage := 0 }

/-- A two-label document with a single token value. -/
def mismatchDoc2 : UsageDoc :=
  { success := true, x_time := ["2024-01-01 00:00:00", "2024-01-01 01:00:00"],
    tokensUsage := [some 3], totalTokensUsage := 0 }

/-- A document that reports overall failure. -/
def failureDoc : UsageDoc :=
  { success := false, x_time := [], tokensUsage := [], totalTokensUsage := 0 }

/-- A two-sample series in one order. -/
def permDocA : UsageDoc :=
  { success := true, x_time := ["2024-01-01 00:00:00", "2024-01-02 00:00:00"],
    tokensUsage := [some 1, some 2], totalTokensUsage := 5 }

/-- The same two samples in the opposite order. -/
def permDocB : UsageDoc :=
  { success := true, x_time := ["2024-01-02 00:00:00", "2024-01-01 00:00:00"],
    tokensUsage := [some 2, some 1], totalTokensUsage := 5 }

/-! ### Lemmas: display width -/

lemma width_foldl_init (a : Nat) (l : List Char) :
    l.foldl (fun w c => w + charDisplayWidth c) a =
      a + l.foldl (fun w c => w + charDisplayWidth c) 0 := by
  induction l generalizing a with
  | nil => simp
  | cons c cs ih =>
      simp only [List.foldl_cons]
      rw [ih (a + charDisplayWidth c), ih (0 + charDisplayWidth c)]
      omega

/-! ### Lemmas: progress bar glyph counts -/

lemma count_color_fill (p : Nat) : (get_progress_bar_color p).data.count '█' = 0 := by
  unfold get_progress_bar_color
  split
  · decide
  · split
    · decide
    · decide

lemma count_color_empty (p : Nat) : (get_progress_bar_color p).data.count '░' = 0 := by
  unfold get_progress_bar_color
  split
  · decide
  · split
    · decide
    · decide

lemma countChar_fill (p w : Nat) :
    countChar '█' (create_progress_bar p w) = w * p / 100 := by
  simp only [create_progress_bar, countChar, String.data_append]
  simp [List.count_append, List.count_replicate, count_color_fill,
    show ("\x1b[90m" : String).data.count '█' = 0 from by decide,
    show ("\x1b[0m" : String).data.count '█' = 0 from by decide,
    GRAY_BAR, ENDC]

lemma countChar_empty (p w : Nat) :
    countChar '░' (create_progress_bar p w) = w - w * p / 100 := by
  simp only [create_progress_bar, countChar, String.data_append]
  simp [List.count_append, List.count_replicate, count_color_empty,
    show ("\x1b[90m" : String).data.count '░' = 0 from by decide,
    show ("\x1b[0m" : String).data.count '░' = 0 from by decide,
    GRAY_BAR, ENDC]

/-! ### Claim theorems: renderer and display width -/

/-- C3: for every percentage `p`, the progress bar produced with the
default width 30 contains exactly `⌊30 * p / 100⌋` filled glyphs. -/
theorem spec_C3 (p : Nat) :
    countChar '█' (create_progress_bar p 30) = 30 * p / 100 :=
  countChar_fill p 30

/-- C4: bar color and label color select the same tier under the same
exact thresholds (`< 50` ok, `50 ≤ · < 80` warning, `≥ 80` critical); the
two functions in fact return identical color codes. -/
theorem spec_C4 (p : Nat) :
    get_progress_bar_color p = get_percentage_color p ∧
    (p < 50 → get_progress_bar_color p = GREEN_BAR ∧ get_percentage_color p = OKGREEN) ∧
    (50 ≤ p → p < 80 → get_progress_bar_color p = YELLOW_BAR ∧ get_percentage_color p = WARNING) ∧
    (80 ≤ p → get_progress_bar_color p = RED_BAR ∧ get_percentage_color p = FAIL) := by
  unfold get_progress_bar_color get_percentage_color
  refine ⟨?_, fun h1 => ?_, fun h1 h2 => ?_, fun h1 => ?_⟩
  · split
    · rfl
    · split
      · rfl
      · rfl
  · simp [h1]
  · have h50 : ¬ p < 50 := by omega
    simp [h50, h2]
  · have h50 : ¬ p < 50 := by omega
    have h80 : ¬ p < 80 := by omega
    simp [h50, h80]

/-- Witness for C4 at the exact tier boundaries 49, 50, 79, 80. -/
theorem spec_C4_witness :
    get_progress_bar_color 49 = GREEN_BAR ∧ get_percentage_color 50 = WARNING ∧
    get_progress_bar_color 79 = YELLOW_BAR ∧ get_percentage_color 80 = FAIL :=
  ⟨((spec_C4 49).2.1 (by decide)).1,
   ((spec_C4 50).2.2.1 (by decide) (by decide)).2,
   ((spec_C4 79).2.2.1 (by decide) (by decide)).1,
   ((spec_C4 80).2.2.2 (by decide)).2⟩

/-- C7: the display-width function is additive over string
concatenation. -/
theorem spec_C7 (a b : String) :
    get_display_width (a ++ b) = get_display_width a + get_display_width b := by
  unfold get_display_width
  rw [String.data_append, List.foldl_append, width_foldl_init]

/-- C9 counterexample: at percentage 101 the bar holds exactly
`⌊30 * 101 / 100⌋ = 30` filled glyphs — not "more than 30" as the claim
asserts for every percentage above 100. -/
theorem spec_C9_counterexample :
    countChar '█' (create_progress_bar 101 30) = 30 ∧
    ¬ 30 < countChar '█' (create_progress_bar 101 30) ∧
    30 * 101 / 100 = 30 := by
  refine ⟨by decide, ?_, by decide⟩
  intro h
  rw [show countChar '█' (create_progress_bar 101 30) = 30 from by decide] at h
  omega

/-- C9 (amended): for every percentage strictly greater than 100 the bar
still contains exactly `⌊30 * p / 100⌋` filled glyphs — at least 30, with
no clamping to the nominal width — and zero empty glyphs. -/
theorem spec_C9 (p : Nat) (h : 100 < p) :
    countChar '█' (create_progress_bar p 30) = 30 * p / 100 ∧
    30 ≤ 30 * p / 100 ∧
    countChar '░' (create_progress_bar p 30) = 0 := by
  have h30 : 30 ≤ 30 * p / 100 := by
    rw [Nat.le_div_iff_mul_le (by norm_num)]
    omega
  exact ⟨countChar_fill p 30, h30, by rw [countChar_empty]; omega⟩

/-- Witness for C9 at percentage 150: 45 filled glyphs, none empty. -/
theorem spec_C9_witness :
    countChar '█' (create_progress_bar 150 30) = 30 * 150 / 100 ∧
    30 ≤ 30 * 150 / 100 ∧
    countChar '░' (create_progress_bar 150 30) = 0 :=
  spec_C9 150 (by decide)

/-! ### Lemmas: the index-driven loop versus the per-pair fold -/

lemma aggLoop_ok (ts : List String) : ∀ (vs : List (Option Nat)) (acc : List (String × Nat)),
    ts.length ≤ vs.length →
    aggLoop ts vs acc = .ok (List.foldl aggStep acc (ts.zip vs)) := by
  induction ts with
  | nil => intro vs acc _; rfl
  | cons t ts ih =>
      intro vs acc h
      cases vs with
      | nil => simp at h
      | cons v vs =>
          cases v with
          | none => exact ih vs acc (by simpa using h)
          | some x => exact ih vs _ (by simpa using h)

lemma aggLoop_err (ts : List String) : ∀ (vs : List (Option Nat)) (acc : List (String × Nat)),
    vs.length < ts.length → aggLoop ts vs acc = .error .indexError := by
  induction ts with
  | nil => intro vs acc h; simp at h
  | cons t ts ih =>
      intro vs acc h
      cases vs with
      | nil => rfl
      | cons v vs =>
          cases v with
          | none => exact ih vs acc (by simpa using h)
          | some x => exact ih vs _ (by simpa using h)

lemma aggregate_unfold (d : UsageDoc) (hs : d.success = true) :
    aggregate_daily_usage (some d) =
      (aggLoop d.x_time d.tokensUsage []).map
        (fun daily => some { daily := daily, total := d.totalTokensUsage }) := by
  simp [aggregate_daily_usage, hs]

lemma aggregate_ok (d : UsageDoc) (hs : d.success = true)
    (hl : d.x_time.length ≤ d.tokensUsage.length) :
    aggregate_daily_usage (some d) =
      .ok (some { daily := dailySpec (d.x_time.zip d.tokensUsage),
                  total := d.totalTokensUsage }) := by
  rw [aggregate_unfold d hs, aggLoop_ok d.x_time d.tokensUsage [] hl]
  rfl

/-! ### Lemmas: bucket values of the daily map -/

lemma dictGet_insertAdd_same (m : List (String × Nat)) (k : String) (v : Nat) :
    dictGet (dictInsertAdd m k v) k = some ((dictGet m k).getD 0 + v) := by
  induction m with
  | nil => simp [dictInsertAdd, dictGet]
  | cons p rest ih =>
      by_cases h : p.1 = k
      · simp [dictInsertAdd, dictGet, h]
      · simp [dictInsertAdd, dictGet, h, ih]

lemma dictGet_insertAdd_other (m : List (String × Nat)) (k k' : String) (v : Nat)
    (hk : k' ≠ k) : dictGet (dictInsertAdd m k v) k' = dictGet m k' := by
  have hkk : ¬ k = k' := fun hh => hk hh.symm
  induction m with
  | nil => simp [dictInsertAdd, dictGet, hkk]
  | cons p rest ih =>
      by_cases h : p.1 = k
      · have hp : ¬ p.1 = k' := by rw [h]; exact hkk
        simp [dictInsertAdd, dictGet, h, hp, hkk]
      · by_cases hp : p.1 = k'
        · simp [dictInsertAdd, dictGet, h, hp, hk]
        · simp [dictInsertAdd, dictGet, h, hp, ih]

lemma dictGet_foldl_aggStep (k : String) (l : List (String × Option Nat)) :
    ∀ acc, dictGet (List.foldl aggStep acc l) k = optAdd (dictGet acc k) (contrib k l) := by
  induction l with
  | nil =>
      intro acc
      rw [List.foldl_nil]
      cases dictGet acc k <;> rfl
  | cons p rest ih =>
      intro acc
      obtain ⟨t, o⟩ := p
      cases o with
      | none => simpa [aggStep, contrib] using ih acc
      | some v =>
          by_cases hk : dateOf t = k
          · rw [List.foldl_cons]
            have hstep : aggStep acc (t, some v) = dictInsertAdd acc k v := by
              simp [aggStep, hk]
            rw [hstep, ih, dictGet_insertAdd_same]
            simp only [contrib, hk, if_pos]
            cases h1 : dictGet acc k <;> cases h2 : contrib k rest <;>
              (simp [optAdd]; try omega)
          · rw [List.foldl_cons]
            have hstep : aggStep acc (t, some v) = dictInsertAdd acc (dateOf t) v := rfl
            rw [hstep, ih, dictGet_insertAdd_other _ _ _ _ (fun hh => hk hh.symm)]
            simp [contrib, hk]

lemma dictGet_dailySpec (k : String) (l : List (String × Option Nat)) :
    dictGet (dailySpec l) k = contrib k l := by
  have h := dictGet_foldl_aggStep k l []
  simpa [dailySpec, dictGet, optAdd] using h

lemma contribList_cons_none (k t : String) (rest : List (String × Option Nat)) :
    contribList k ((t, none) :: rest) = contribList k rest := rfl

lemma contribList_cons_pos (k t : String) (v : Nat) (rest : List (String × Option Nat))
    (h : dateOf t = k) : contribList k ((t, some v) :: rest) = v :: contribList k rest := by
  simp [contribList, List.filterMap_cons, h]

lemma contribList_cons_neg (k t : String) (v : Nat) (rest : List (String × Option Nat))
    (h : ¬ dateOf t = k) : contribList k ((t, some v) :: rest) = contribList k rest := by
  simp [contribList, List.filterMap_cons, h]

lemma contrib_eq_contribList (k : String) (l : List (String × Option Nat)) :
    contrib k l = match contribList k l with
      | [] => none
      | v :: vs => some (v + vs.sum) := by
  induction l with
  | nil => rfl
  | cons p rest ih =>
      obtain ⟨t, o⟩ := p
      cases o with
      | none =>
          rw [show contrib k ((t, none) :: rest) = contrib k rest from rfl,
            contribList_cons_none, ih]
      | some v =>
          by_cases hk : dateOf t = k
          · rw [show contrib k ((t, some v) :: rest) =
                some (v + (contrib k rest).getD 0) from by simp [contrib, hk],
              contribList_cons_pos k t v rest hk, ih]
            cases contribList k rest <;> simp
          · rw [show contrib k ((t, some v) :: rest) = contrib k rest from by
                simp [contrib, hk],
              contribList_cons_neg k t v rest hk, ih]

lemma contrib_perm (k : String) {l₁ l₂ : List (String × Option Nat)} (h : l₁.Perm l₂) :
    contrib k l₁ = contrib k l₂ := by
  rw [contrib_eq_contribList, contrib_eq_contribList]
  have hp : (contribList k l₁).Perm (contribList k l₂) := h.filterMap _
  have hsum : (contribList k l₁).sum = (contribList k l₂).sum := hp.sum_eq
  cases e1 : contribList k l₁ with
  | nil =>
      rw [e1] at hp
      rw [hp.nil_eq.symm]
  | cons v vs =>
      rw [e1] at hp hsum
      cases e2 : contribList k l₂ with
      | nil =>
          rw [e2] at hp
          exact absurd hp.symm.nil_eq (by simp)
      | cons w ws =>
          rw [e2] at hsum
          simp only [List.sum_cons] at hsum
          show some (v + vs.sum) = some (w + ws.sum)
          rw [hsum]

lemma foldl_aggStep_all_none (l : List (String × Option Nat))
    (h : ∀ p ∈ l, p.2 = none) : ∀ acc, List.foldl aggStep acc l = acc := by
  induction l with
  | nil => intro acc; rfl
  | cons p rest ih =>
      intro acc
      have hp : p.2 = none := h p (by simp)
      rw [List.foldl_cons, show aggStep acc p = acc from by simp [aggStep, hp]]
      exact ih (fun q hq => h q (by simp [hq])) acc

lemma contrib_ne_none_of_mem {l : List (String × Option Nat)} {t : String} {v : Nat}
    (h : (t, some v) ∈ l) : contrib (dateOf t) l ≠ none := by
  induction l with
  | nil => cases h
  | cons p rest ih =>
      obtain ⟨s, o⟩ := p
      rcases List.mem_cons.mp h with he | hm
      · cases he
        simp [contrib]
      · cases o with
        | none => simpa [contrib] using ih hm
        | some w =>
            by_cases hk : dateOf s = dateOf t
            · simp [contrib, hk]
            · simpa [contrib, hk] using ih hm

/-! ### Claim theorems: aggregator -/

/-- C1: on an index-synchronized series the aggregator builds the daily
map by truncating each label at the first space and summing present
values; an absent value contributes nothing and creates no bucket, a
present zero does create a bucket; the sample series yields
`{"2024-01-01": 10, "2024-01-02": 5}`, and an all-absent series yields
the empty map, not the absent result. -/
theorem spec_C1 :
    (∀ d : UsageDoc, d.success = true → d.x_time.length = d.tokensUsage.length →
       aggregate_daily_usage (some d) =
         .ok (some { daily := dailySpec (d.x_time.zip d.tokensUsage),
                     total := d.totalTokensUsage })) ∧
    (∀ (l : List (String × Option Nat)) (t : String), (t, some 0) ∈ l →
       dictGet (dailySpec l) (dateOf t) ≠ none) ∧
    (∀ d : UsageDoc, d.success = true → d.x_time.length = d.tokensUsage.length →
       (∀ v ∈ d.tokensUsage, v = none) →
       aggregate_daily_usage (some d) =
         .ok (some { daily := [], total := d.totalTokensUsage })) ∧
    dailySpec [("2024-01-01 00:00:00", some 10), ("2024-01-01 12:00:00", none),
      ("2024-01-02 00:00:00", some 5)] = [("2024-01-01", 10), ("2024-01-02", 5)] := by
  refine ⟨fun d hs hl => aggregate_ok d hs (le_of_eq hl), ?_, ?_, by decide⟩
  · intro l t hmem
    rw [dictGet_dailySpec]
    exact contrib_ne_none_of_mem hmem
  · intro d hs hl hnone
    have h1 := aggregate_ok d hs (le_of_eq hl)
    have h2 : dailySpec (d.x_time.zip d.tokensUsage) = [] := by
      unfold dailySpec
      apply foldl_aggStep_all_none
      intro p hp
      exact hnone p.2 (List.of_mem_zip hp).2
    rw [h1, h2]

/-- Witness for C1 on the spec's sample series. -/
theorem spec_C1_witness :
    aggregate_daily_usage (some sampleDoc) =
      .ok (some { daily := dailySpec (sampleTimes.zip sampleTokens), total := 99 }) ∧
    dailySpec (sampleTimes.zip sampleTokens) = [("2024-01-01", 10), ("2024-01-02", 5)] :=
  ⟨spec_C1.1 sampleDoc rfl rfl, by decide⟩

/-- C2 counterexample: a document whose time-label array is longer than
its token-value array makes the aggregator raise an uncaught `IndexError`
(the source catches only `AttributeError`/`TypeError`) — it does not
yield the absent result. -/
theorem spec_C2_counterexample :
    aggregate_daily_usage (some mismatchDoc) = .error .indexError ∧
    aggregate_daily_usage (some mismatchDoc) ≠ .ok none := by
  refine ⟨rfl, fun hc => ?_⟩
  rw [show aggregate_daily_usage (some mismatchDoc) = .error .indexError from rfl] at hc
  exact Except.noConfusion hc

/-- C2 (amended): an absent document or one that reports overall failure
yields absent; but a document whose time-label array is strictly longer
than its token-value array raises an uncaught `IndexError` (a crash), not
absent. -/
theorem spec_C2 :
    aggregate_daily_usage none = .ok none ∧
    (∀ d : UsageDoc, d.success = false → aggregate_daily_usage (some d) = .ok none) ∧
    (∀ d : UsageDoc, d.success = true → d.tokensUsage.length < d.x_time.length →
       aggregate_daily_usage (some d) = .error .indexError) := by
  refine ⟨rfl, fun d hs => ?_, fun d hs hl => ?_⟩
  · simp [aggregate_daily_usage, hs]
  · rw [aggregate_unfold d hs, aggLoop_err d.x_time d.tokensUsage [] hl]
    rfl

/-- Witness for C2 (amended) on a failure-flagged document and on a
length-mismatched one. -/
theorem spec_C2_witness :
    aggregate_daily_usage (some failureDoc) = .ok none ∧
    aggregate_daily_usage (some mismatchDoc2) = .error .indexError :=
  ⟨spec_C2.2.1 failureDoc rfl, spec_C2.2.2 mismatchDoc2 rfl (by decide)⟩

/-- C6: whenever the secondary usage-series call fails (transport/parse
failure gives `none`, or the body carries a failure indicator), the
aggregation yields absent, the daily-summary block is the explicit
no-data placeholder, the chart is omitted, and the phase ends with exit
status 0. -/
theorem spec_C6 (show_weekly : Bool) (todayKey : String) (resp : Option UsageDoc)
    (h : resp = none ∨ ∃ d, resp = some d ∧ d.success = false) :
    aggregate_daily_usage resp = .ok none ∧
    secondary_phase show_weekly todayKey resp = .ok (.noData, false, 0) := by
  have hagg : aggregate_daily_usage resp = .ok none := by
    rcases h with h | ⟨d, hd, hs⟩
    · rw [h]; rfl
    · rw [hd]; simp [aggregate_daily_usage, hs]
  refine ⟨hagg, ?_⟩
  unfold secondary_phase
  rw [hagg]
  simp [print_daily_usage_summary]

/-- Witness for C6: a transport failure on the secondary call with the
chart requested. -/
theorem spec_C6_witness :
    aggregate_daily_usage none = .ok none ∧
    secondary_phase true "2024-01-01" none = .ok (.noData, false, 0) :=
  spec_C6 true "2024-01-01" none (Or.inl rfl)

/-- C10: the daily map is order-insensitive — aggregating any permutation
of the series gives a map with identical lookups. -/
theorem spec_C10 (d₁ d₂ : UsageDoc) (h₁ : d₁.success = true) (h₂ : d₂.success = true)
    (hl₁ : d₁.x_time.length = d₁.tokensUsage.length)
    (hl₂ : d₂.x_time.length = d₂.tokensUsage.length)
    (hperm : (d₁.x_time.zip d₁.tokensUsage).Perm (d₂.x_time.zip d₂.tokensUsage)) :
    ∃ r₁ r₂ : AggregatedUsage,
      aggregate_daily_usage (some d₁) = .ok (some r₁) ∧
      aggregate_daily_usage (some d₂) = .ok (some r₂) ∧
      ∀ k, dictGet r₁.daily k = dictGet r₂.daily k := by
  refine ⟨_, _, aggregate_ok d₁ h₁ (le_of_eq hl₁), aggregate_ok d₂ h₂ (le_of_eq hl₂), ?_⟩
  intro k
  show dictGet (dailySpec (d₁.x_time.zip d₁.tokensUsage)) k =
    dictGet (dailySpec (d₂.x_time.zip d₂.tokensUsage)) k
  rw [dictGet_dailySpec, dictGet_dailySpec]
  exact contrib_perm k hperm

/-- Witness for C10 on a two-sample series and its swap. -/
theorem spec_C10_witness :
    ∃ r₁ r₂ : AggregatedUsage,
      aggregate_daily_usage (some permDocA) = .ok (some r₁) ∧
      aggregate_daily_usage (some permDocB) = .ok (some r₂) ∧
      ∀ k, dictGet r₁.daily k = dictGet r₂.daily k :=
  spec_C10 permDocA permDocB rfl rfl rfl rfl (by decide)

/-! ### Claim theorems: time window and chart -/

/-- C5: the window has `startLabel` the date `days - 1` days before today
with the start-of-day suffix and `endLabel` today's date with the
end-of-day suffix; the chart's day sequence has length `days`,
most-recent-first — index `i` is the date `i` days before today, so index
0 is today (marked 今天) and index 1 is yesterday (marked 昨天). -/
theorem spec_C5 (today : Int) (days : Nat) (h : 1 ≤ days) :
    (date_window today days).startLabel =
      fmtDate (today - (days - 1 : Nat)) ++ " 00:00:00" ∧
    (date_window today days).endLabel = fmtDate today ++ " 23:59:59" ∧
    (date_list today days).length = days ∧
    (∀ i : Nat, i < days →
       (date_list today days)[i]? = some (fmtDate (today - (i : Int)), today - (i : Int))) ∧
    (date_list today days)[0]? = some (fmtDate today, today) ∧
    (2 ≤ days → (date_list today days)[1]? = some (fmtDate (today - 1), today - 1)) ∧
    (∀ (s : String) (z : Int), day_label 0 s z = s ++ " (今天)") ∧
    (∀ (s : String) (z : Int), day_label 1 s z = s ++ " (昨天)") := by
  have hidx : ∀ i : Nat, i < days →
      (date_list today days)[i]? = some (fmtDate (today - (i : Int)), today - (i : Int)) := by
    intro i hi
    unfold date_list
    rw [List.getElem?_map, List.getElem?_range hi]
    rfl
  have hlen : (date_list today days).length = days := by
    unfold date_list
    rw [List.length_map, List.length_range]
  refine ⟨rfl, rfl, hlen, hidx, ?_, fun h2 => ?_, fun s z => rfl, fun s z => rfl⟩
  · simpa using hidx 0 h
  · simpa using hidx 1 h2

/-- Witness for C5 with today = 2024-03-10 and a 7-day window. -/
theorem spec_C5_witness :
    (date_window (days_from_civil 2024 3 10) 7).startLabel =
      fmtDate (days_from_civil 2024 3 10 - ((7 - 1 : Nat) : Int)) ++ " 00:00:00" ∧
    (date_window (days_from_civil 2024 3 10) 7).startLabel = "2024-03-04 00:00:00" ∧
    (date_window (days_from_civil 2024 3 10) 7).endLabel = "2024-03-10 23:59:59" ∧
    (date_list (days_from_civil 2024 3 10) 7).length = 7 ∧
    (date_list (days_from_civil 2024 3 10) 7)[0]? =
      some ("2024-03-10", days_from_civil 2024 3 10) :=
  ⟨(spec_C5 (days_from_civil 2024 3 10) 7 (by decide)).1, by decide, by decide,
   (spec_C5 (days_from_civil 2024 3 10) 7 (by decide)).2.2.1, by decide⟩

lemma one_le_max_usage (daily : List (String × Nat)) : 1 ≤ max_usage_of daily := by
  unfold max_usage_of
  cases hm : daily.map Prod.snd with
  | nil => simp
  | cons v vs =>
      dsimp only
      split
      · omega
      · omega

lemma dictGet_getD_zero (daily : List (String × Nat)) (hz : ∀ p ∈ daily, p.2 = 0)
    (k : String) : (dictGet daily k).getD 0 = 0 := by
  induction daily with
  | nil => rfl
  | cons p rest ih =>
      by_cases h : p.1 = k
      · simp [dictGet, h, hz p (by simp)]
      · rw [show dictGet (p :: rest) k = dictGet rest k from by simp [dictGet, h]]
        exact ih (fun q hq => hz q (by simp [hq]))

/-- C8: each chart row's bar width is `⌊30 * dayValue / m⌋` where `m` is
the maximum over the entire daily map, floored to 1 when that maximum is
0 — so an all-zero map gives width 0 everywhere and the divisor is never
0. -/
theorem spec_C8 (today : Int) (days : Nat) (daily : List (String × Nat)) (h : daily ≠ []) :
    1 ≤ max_usage_of daily ∧
    (weekly_rows today days daily).length = days ∧
    ∀ r ∈ weekly_rows today days daily,
      r.2.2 = 30 * r.2.1 / max_usage_of daily ∧
      ((∀ p ∈ daily, p.2 = 0) → r.2.2 = 0) := by
  have hm := one_le_max_usage daily
  have hrows : weekly_rows today days daily =
      (date_list today days).map (fun p =>
        ((p.1 : String), (dictGet daily p.1).getD 0,
          if 0 < max_usage_of daily then
            30 * (dictGet daily p.1).getD 0 / max_usage_of daily
          else 0)) := by
    unfold weekly_rows
    rw [if_neg h]
  have hlen : (date_list today days).length = days := by
    unfold date_list
    rw [List.length_map, List.length_range]
  refine ⟨hm, ?_, ?_⟩
  · rw [hrows, List.length_map, hlen]
  · intro r hr
    rw [hrows] at hr
    rcases List.mem_map.mp hr with ⟨p, hp, rfl⟩
    dsimp only
    rw [if_pos (by omega : 0 < max_usage_of daily)]
    refine ⟨rfl, fun hz => ?_⟩
    rw [dictGet_getD_zero daily hz p.1]
    simp

/-- Witness for C8 on the spec's all-zero two-bucket map. -/
theorem spec_C8_witness :
    1 ≤ max_usage_of [("d1", 0), ("d2", 0)] ∧
    (weekly_rows 0 2 [("d1", 0), ("d2", 0)]).length = 2 ∧
    ∀ r ∈ weekly_rows 0 2 [("d1", 0), ("d2", 0)], r.2.2 = 0 := by
  have h := spec_C8 0 2 [("d1", 0), ("d2", 0)] (by decide)
  exact ⟨h.1, h.2.1, fun r hr => (h.2.2 r hr).2 (by decide)⟩

end Zusage
